import Mathlib

/-!
# Upload-and-transcribe controller (static/js/script.js)

A shallow embedding of the controller of `static/js/script.js`: the four session
variables, the properties of the document elements that the script writes, and each
handler as a function on that state.  The `await` inside `handleTranscription` is split
into the part that runs before the request is sent and the part that runs when the
reply arrives, so that other handlers can run in between.

Not modelled: scrolling, notifications, the clipboard and the download (they touch
nothing that the modelled handlers read).
-/

namespace VoiceToText

/-! ## Data model -/

/-- Value of `element.style.display` as written by the script. -/
inductive Display where
  | none
  | block
  | flex
  deriving DecidableEq, Repr

/-- The three properties of a browser `File` that the script reads. -/
structure File where
  name : String
  type : String
  size : Nat
  deriving DecidableEq, Repr

/-- Parsed JSON body of the reply of `/transcribe`; `none` is an absent property
(`undefined`).  The properties have the types of the response shape the client expects:
`{ transcription: string, original_transcription?: string, refined?: boolean,
error?: string }`. -/
structure ResponseData where
  transcription : Option String
  original_transcription : Option String
  refined : Option Bool
  error : Option String
  deriving DecidableEq, Repr

/-- What the `try` block of `handleTranscription` gets from the network: either
`fetch` or `response.json()` throws, or there is a response with its `ok` flag and
its parsed body. -/
inductive Reply where
  | threw
  | response (ok : Bool) (data : ResponseData)
  deriving DecidableEq, Repr

/-- The session variables (lines 24-27), the element properties written by the script,
and the number of requests whose reply has not arrived yet.  A session variable that
holds a string is an `Option String`, `none` being `undefined`. -/
structure State where
  selectedFile : Option File
  currentTranscription : Option String
  originalTranscription : Option String
  isOriginalVisible : Bool
  audioFileInputValue : String
  fileUploadAreaDisplay : Display
  fileInfoDisplay : Display
  fileNameText : String
  fileSizeText : String
  transcribeBtnDisabled : Bool
  btnTextDisplay : Display
  btnLoadingDisplay : Display
  resultsSectionDisplay : Display
  errorSectionDisplay : Display
  errorMessageText : String
  transcriptionOutputText : String
  originalOutputText : String
  originalSectionDisplay : Display
  originalSectionAnimation : String
  toggleOriginalBtnDisplay : Display
  toggleIconClass : String
  toggleLabelText : String
  pending : Nat
  deriving DecidableEq, Repr

/-! ## JavaScript string helpers -/

/-- The call `chars.split(sep)` on a list of characters: the segments between the separators,
never an empty list. -/
def jsSplit (sep : Char) : List Char → List (List Char)
  | [] => [[]]
  | c :: cs =>
    if c = sep then [] :: jsSplit sep cs
    else
      match jsSplit sep cs with
      | seg :: rest => (c :: seg) :: rest
      | [] => [[c]]

/-- The call `segments.pop()`: the last element of the array (`split` never returns an empty
array, so the `undefined` case does not arise; it is the empty text here). -/
def jsPop : List (List Char) → List Char
  | [] => []
  | [seg] => seg
  | _ :: rest => jsPop rest

/-- The call `s.toLowerCase()`, on the ASCII letters.  No character outside `A`-`Z` lower-cases
to one of the letters of `wav`, `mp3`, `m4a`, so comparing the result with these three
words gives what the full Unicode mapping gives. -/
def toLowerCase (cs : List Char) : List Char :=
  cs.map Char.toLower

/-- JavaScript truthiness of a value that is a string or `undefined`. -/
def truthy : Option String → Bool
  | some s => s != ""
  | Option.none => false

/-- The expression `a || b` on values that are strings or `undefined`. -/
def jsOr (a b : Option String) : Option String :=
  if truthy a then a else b

/-- What `element.textContent = v` stores: `undefined` becomes the empty text. -/
def textContent : Option String → String
  | some s => s
  | Option.none => ""

/-! ## formatFileSize (lines 430-438) -/

/-- The array `sizes` of `formatFileSize`. -/
def sizes : List String := ["Bytes", "KB", "MB", "GB"]

/-- The call `(num / den).toFixed(2)` as a count of hundredths: the integer `n` for which
`n / 100` is nearest to `num / den`, the larger one on a tie. -/
def toFixed2 (num den : Nat) : Nat :=
  (200 * num + den) / (2 * den)

/-- The call `parseFloat(t)` followed by the conversion of the number to a string, for `t` the
two-decimal text of `h` hundredths: the decimal without trailing zeros. -/
def numberToString (h : Nat) : String :=
  if h % 100 = 0 then toString (h / 100)
  else if h % 10 = 0 then toString (h / 100) ++ "." ++ toString (h % 100 / 10)
  else toString (h / 100) ++ "." ++ toString (h % 100 / 10) ++ toString (h % 10)

/-- The element `sizes[i]` converted to a string by `+`: out of range it is `undefined`. -/
def sizesAt (i : Nat) : String :=
  match sizes.get? i with
  | some u => u
  | Option.none => "undefined"

/-- The call `formatFileSize(bytes)` for an integer byte count.  `Math.floor(Math.log(bytes) /
Math.log(k))` is the exact integer logarithm; `bytes / Math.pow(k, i)` is a division by
a power of two, exact on doubles. -/
def formatFileSize (bytes : Nat) : String :=
  if bytes = 0 then "0 Bytes"
  else
    let k := 1024
    let i := Nat.log k bytes
    numberToString (toFixed2 bytes (k ^ i)) ++ " " ++ sizesAt i

/-! ## Handlers -/

/-- The function `hideResults` (lines 211-213). -/
def hideResults (s : State) : State :=
  { s with resultsSectionDisplay := Display.none }

/-- The function `showError` (lines 216-222). -/
def showError (s : State) (message : String) : State :=
  { s with errorMessageText := message, errorSectionDisplay := Display.block }

/-- The function `hideError` (lines 225-227). -/
def hideError (s : State) : State :=
  { s with errorSectionDisplay := Display.none }

/-- The array `validTypes` of `handleFileSelection`. -/
def validTypes : List String :=
  ["audio/wav", "audio/mp3", "audio/mpeg", "audio/m4a", "audio/x-m4a"]

/-- The array `validExtensions` of `handleFileSelection`. -/
def validExtensions : List String := [".wav", ".mp3", ".m4a"]

/-- The constant `fileExtension` of line 103:
`'.' + file.name.split('.').pop().toLowerCase()`. -/
def fileExtension (name : String) : String :=
  "." ++ String.mk (toLowerCase (jsPop (jsSplit '.' name.data)))

/-- The constant `maxSize` of line 111. -/
def maxSize : Nat := 50 * 1024 * 1024

/-- The function `handleFileSelection` (lines 98-129). -/
def handleFileSelection (s : State) (file : File) : State :=
  if !validTypes.contains file.type && !validExtensions.contains (fileExtension file.name) then
    showError s "Please select a valid audio file (WAV, MP3, or M4A)."
  else if file.size > maxSize then
    showError s "File size must be less than 50MB."
  else
    hideError (hideResults
      { s with
        selectedFile := some file
        fileNameText := file.name
        fileSizeText := formatFileSize file.size
        fileUploadAreaDisplay := Display.none
        fileInfoDisplay := Display.block
        transcribeBtnDisabled := false })

/-- The function `clearFileSelection` (lines 132-140). -/
def clearFileSelection (s : State) : State :=
  hideError (hideResults
    { s with
      selectedFile := Option.none
      audioFileInputValue := ""
      fileUploadAreaDisplay := Display.block
      fileInfoDisplay := Display.none
      transcribeBtnDisabled := true })

/-- The function `setLoadingState` (lines 230-243). -/
def setLoadingState (s : State) (isLoading : Bool) : State :=
  if isLoading then
    { s with
      btnTextDisplay := Display.none
      btnLoadingDisplay := Display.flex
      transcribeBtnDisabled := true }
  else
    { s with
      btnTextDisplay := Display.flex
      btnLoadingDisplay := Display.none
      transcribeBtnDisabled := false }

/-- The function `updateToggleButton` (lines 328-339). -/
def updateToggleButton (s : State) : State :=
  if s.isOriginalVisible then
    { s with toggleIconClass := "fas fa-eye-slash", toggleLabelText := " Hide Original Transcription" }
  else
    { s with toggleIconClass := "fas fa-eye", toggleLabelText := " Show Original Transcription" }

/-- The function `showResults` (lines 178-208). -/
def showResults (s : State) (data : ResponseData) : State :=
  let s1 : State :=
    { s with
      currentTranscription := data.transcription
      originalTranscription := jsOr data.original_transcription data.transcription }
  let s2 : State := { s1 with transcriptionOutputText := textContent s1.currentTranscription }
  let s3 : State :=
    if data.refined = some true && s2.originalTranscription != s2.currentTranscription then
      { s2 with
        originalOutputText := textContent s2.originalTranscription
        toggleOriginalBtnDisplay := Display.flex }
    else
      { s2 with toggleOriginalBtnDisplay := Display.none }
  let s4 : State :=
    updateToggleButton { s3 with isOriginalVisible := false, originalSectionDisplay := Display.none }
  { s4 with resultsSectionDisplay := Display.block }

/-- The function `handleTranscription` up to the `await fetch(...)` (lines 145-156): the loading
state, both panels hidden, one more request in flight. -/
def handleTranscriptionStart (s : State) : State :=
  let s1 := hideError (hideResults (setLoadingState s true))
  { s1 with pending := s1.pending + 1 }

/-- The function `handleTranscription` from the arrival of the reply on (lines 158-174): the
branches of the `try`, the `catch`, then the `finally`. -/
def handleTranscriptionFinish (s : State) (r : Reply) : State :=
  let s1 : State :=
    match r with
    | Reply.threw => showError s "Network error. Please check your connection and try again."
    | Reply.response ok data =>
      if ok then
        if truthy data.transcription then showResults s data
        else showError s "No transcription was generated. Please try again with a different audio file."
      else
        showError s
          (textContent (jsOr data.error
            (some "An error occurred during transcription. Please try again.")))
  let s2 := setLoadingState s1 false
  { s2 with pending := s2.pending - 1 }

/-- The `submit` listener of the form (lines 64-73), up to the `await`. -/
def submitHandler (s : State) : State :=
  if s.selectedFile.isNone then showError s "Please select an audio file first."
  else handleTranscriptionStart s

/-- The function `resetToUpload` (lines 299-311). -/
def resetToUpload (s : State) : State :=
  let s1 := hideError (hideResults (clearFileSelection s))
  { s1 with
    currentTranscription := some ""
    originalTranscription := some ""
    isOriginalVisible := false }

/-- The function `toggleOriginalTranscription` (lines 314-325). -/
def toggleOriginalTranscription (s : State) : State :=
  let s1 : State := { s with isOriginalVisible := !s.isOriginalVisible }
  let s2 : State :=
    if s1.isOriginalVisible then
      { s1 with originalSectionDisplay := Display.block, originalSectionAnimation := "fadeInUp 0.3s ease" }
    else
      { s1 with originalSectionDisplay := Display.none }
  updateToggleButton s2

/-! ## The controller as a transition system -/

/-- The events the listeners of lines 30-95 react to, and the arrival of a reply. -/
inductive Event where
  | selectFile (file : File)
  | removeFile
  | submit
  | reply (r : Reply)
  | toggleOriginal
  | reset
  deriving DecidableEq, Repr

/-- One event handled.  A reply can only arrive for a request in flight; with none in
flight the event does not occur and the state stays. -/
def step (s : State) : Event → State
  | Event.selectFile file => handleFileSelection s file
  | Event.removeFile => clearFileSelection s
  | Event.submit => submitHandler s
  | Event.reply r => if s.pending = 0 then s else handleTranscriptionFinish s r
  | Event.toggleOriginal => toggleOriginalTranscription s
  | Event.reset => resetToUpload s

/-- A sequence of events handled in order. -/
def run (s : State) (events : List Event) : State :=
  events.foldl step s

/-- Modelled from the spec: the document (its markup and style sheet) is not part of
the script.  The state right after the script has loaded has the session variables of
lines 24-27, no file selected, the file-info, results and error panels hidden, the
submit button disabled and no request in flight; the other element properties are
whatever the document gives them. -/
def IsInitial (s : State) : Prop :=
  s.selectedFile = Option.none ∧ s.currentTranscription = some "" ∧
  s.originalTranscription = some "" ∧ s.isOriginalVisible = false ∧
  s.fileInfoDisplay = Display.none ∧ s.transcribeBtnDisabled = true ∧
  s.resultsSectionDisplay = Display.none ∧ s.errorSectionDisplay = Display.none ∧
  s.pending = 0

/-- Modelled from the spec: one initial state, with the upload area shown, the
original-text panel and the toggle hidden, and empty texts. -/
def initialState : State :=
  { selectedFile := Option.none
    currentTranscription := some ""
    originalTranscription := some ""
    isOriginalVisible := false
    audioFileInputValue := ""
    fileUploadAreaDisplay := Display.block
    fileInfoDisplay := Display.none
    fileNameText := ""
    fileSizeText := ""
    transcribeBtnDisabled := true
    btnTextDisplay := Display.flex
    btnLoadingDisplay := Display.none
    resultsSectionDisplay := Display.none
    errorSectionDisplay := Display.none
    errorMessageText := ""
    transcriptionOutputText := ""
    originalOutputText := ""
    originalSectionDisplay := Display.none
    originalSectionAnimation := ""
    toggleOriginalBtnDisplay := Display.none
    toggleIconClass := "fas fa-eye"
    toggleLabelText := " Show Original Transcription"
    pending := 0 }

/-- The states the controller can be in: an initial state followed by events. -/
def Reachable (s : State) : Prop :=
  ∃ s0 events, IsInitial s0 ∧ run s0 events = s

/-! ## Definitions that follow the wording of the specification -/

/-- The longest ending of a list of characters that holds no `.`: what follows its
last `.`, and the whole list when it holds none.  It describes what
`split('.').pop()` returns. -/
def lastSegment (name : List Char) : List Char :=
  (name.reverse.takeWhile (fun c => c != '.')).reverse

/-- The text after the last `.` of a name; a name without a `.` has none. -/
def textAfterLastDot (name : List Char) : Option (List Char) :=
  if '.' ∈ name then some ((name.reverse.takeWhile (fun c => c != '.')).reverse)
  else Option.none

/-- The validation rule of the specification: the media type is on the allow-list or
the lower-cased text after the last `.` of the name is `wav`, `mp3` or `m4a`, and the
size is at most 52,428,800 bytes. -/
def SpecValid (file : File) : Prop :=
  (file.type ∈ ["audio/wav", "audio/mp3", "audio/mpeg", "audio/m4a", "audio/x-m4a"] ∨
    (textAfterLastDot file.name.data).map (fun t => String.mk (toLowerCase t)) ∈
      [some "wav", some "mp3", some "m4a"]) ∧
  file.size ≤ 52428800

/-- The two checks of `handleFileSelection` (lines 105 and 112) as one Boolean: the
selection goes through exactly when it is `true`. -/
def passesValidation (file : File) : Bool :=
  (validTypes.contains file.type || validExtensions.contains (fileExtension file.name)) &&
    decide (file.size ≤ maxSize)

/-- The part of the state the invariants on the file selection speak of:
`selectedFile`, the display of the file-info panel, the `disabled` flag of the submit
button and the number of requests in flight. -/
def selectionView (s : State) : Option File × Display × Bool × Nat :=
  (s.selectedFile, s.fileInfoDisplay, s.transcribeBtnDisabled, s.pending)

/-- A name ends in the extension `ext` when case is ignored. -/
def endsWithIgnoringCase (name : String) (ext : String) : Bool :=
  ext.data.isSuffixOf (toLowerCase name.data)

/-- What the user is shown once a submission has ended: the results panel with a text,
or the error panel with a message. -/
inductive Outcome where
  | results (text : String)
  | error (message : String)
  deriving DecidableEq, Repr

/-- The outcome the specification gives for a reply: the transcription when the reply
is a success with a non-empty transcription, the "no transcription" message when it is
a success without one, the message of the server (or a generic one when there is none
or it is empty) on a failure, the connectivity message when the request or the parsing
throws. -/
def specOutcome : Reply → Outcome
  | Reply.threw => Outcome.error "Network error. Please check your connection and try again."
  | Reply.response true data =>
    match data.transcription with
    | some t =>
      if t = "" then
        Outcome.error
          "No transcription was generated. Please try again with a different audio file."
      else Outcome.results t
    | Option.none =>
      Outcome.error
        "No transcription was generated. Please try again with a different audio file."
  | Reply.response false data =>
    match data.error with
    | some e =>
      if e = "" then Outcome.error "An error occurred during transcription. Please try again."
      else Outcome.error e
    | Option.none => Outcome.error "An error occurred during transcription. Please try again."

/-- The original text the specification has `showResults` store: the field
`original_transcription` when it is a non-empty string, the transcription otherwise. -/
def specStoredOriginal (data : ResponseData) : Option String :=
  match data.original_transcription with
  | some o => if o = "" then data.transcription else some o
  | Option.none => data.transcription

/-! ## Lemmas on the string helpers -/

theorem jsSplit_of_not_mem (sep : Char) (cs : List Char) (h : sep ∉ cs) :
    jsSplit sep cs = [cs] := by
  induction cs with
  | nil => rfl
  | cons c cs ih =>
    have hc : c ≠ sep := fun e => h (by simp [e])
    have hcs : sep ∉ cs := fun m => h (List.mem_cons_of_mem _ m)
    simp [jsSplit, hc, ih hcs]

theorem jsSplit_of_mem (sep : Char) (cs : List Char) (h : sep ∈ cs) :
    ∃ seg other rest, jsSplit sep cs = seg :: other :: rest := by
  induction cs with
  | nil => simp at h
  | cons c cs ih =>
    by_cases hc : c = sep
    · by_cases hm : sep ∈ cs
      · obtain ⟨seg, other, rest, e⟩ := ih hm
        exact ⟨[], seg, other :: rest, by simp [jsSplit, hc, e]⟩
      · exact ⟨[], cs, [], by simp [jsSplit, hc, jsSplit_of_not_mem sep cs hm]⟩
    · have hm : sep ∈ cs := by
        rcases List.mem_cons.mp h with e | m
        · exact absurd e.symm hc
        · exact m
      obtain ⟨seg, other, rest, e⟩ := ih hm
      exact ⟨c :: seg, other, rest, by simp [jsSplit, hc, e]⟩

theorem takeWhile_append_singleton (p : Char → Bool) (l : List Char) (c : Char) :
    (l ++ [c]).takeWhile p =
      if l.all p then l ++ (if p c then [c] else []) else l.takeWhile p := by
  induction l with
  | nil => by_cases h : p c <;> simp [List.takeWhile, h]
  | cons a l ih =>
    by_cases ha : p a
    · by_cases hl : l.all p
      · simp only [List.cons_append, List.takeWhile_cons, ha, ih, hl, List.all_cons]
        simp
      · simp only [List.cons_append, List.takeWhile_cons, ha, ih, hl, List.all_cons]
        simp
    · simp [List.takeWhile_cons, ha]

/-- What `split('.').pop()` yields is the longest ending without a separator. -/
theorem jsPop_jsSplit (cs : List Char) :
    jsPop (jsSplit '.' cs) = lastSegment cs := by
  induction cs with
  | nil => rfl
  | cons c cs ih =>
    unfold lastSegment at ih ⊢
    rw [List.reverse_cons, takeWhile_append_singleton]
    by_cases hm : '.' ∈ cs
    · have hall : (cs.reverse.all fun c => c != '.') = false := by
        rw [List.all_eq_false]
        exact ⟨'.', by simpa using hm, by simp⟩
      obtain ⟨seg, other, rest, e⟩ := jsSplit_of_mem '.' cs hm
      rw [hall]
      simp only [Bool.false_eq_true, if_false]
      rw [← ih, e]
      by_cases hc : c = '.'
      · simp [jsSplit, hc, e, jsPop]
      · simp [jsSplit, hc, e, jsPop]
    · have hall : (cs.reverse.all fun c => c != '.') = true := by
        rw [List.all_eq_true]
        intro x hx
        have : x ≠ '.' := fun e => hm (by simpa [e] using hx)
        simpa using this
      rw [hall]
      by_cases hc : c = '.'
      · simp [jsSplit, hc, jsSplit_of_not_mem '.' cs hm, jsPop]
      · simp [jsSplit, hc, jsSplit_of_not_mem '.' cs hm, jsPop]

theorem dot_append_eq_iff (a b : String) : "." ++ a = "." ++ b ↔ a = b := by
  constructor
  · intro h
    have h2 := congrArg String.data h
    simp only [String.data_append] at h2
    exact String.ext (List.append_cancel_left h2)
  · intro h
    rw [h]

/-- The two checks of the handler in words: the media type is on the allow-list or the
lower-cased last segment of the name is `wav`, `mp3` or `m4a`, and the size is at most
52,428,800 bytes. -/
theorem passesValidation_iff (file : File) :
    passesValidation file = true ↔
      ((file.type ∈ ["audio/wav", "audio/mp3", "audio/mpeg", "audio/m4a", "audio/x-m4a"] ∨
          String.mk (toLowerCase (lastSegment file.name.data)) ∈ ["wav", "mp3", "m4a"]) ∧
        file.size ≤ 52428800) := by
  have e1 : ".wav" = "." ++ "wav" := by decide
  have e2 : ".mp3" = "." ++ "mp3" := by decide
  have e3 : ".m4a" = "." ++ "m4a" := by decide
  unfold passesValidation
  simp only [Bool.and_eq_true, Bool.or_eq_true, decide_eq_true_eq, List.contains_cons,
    List.contains_nil, Bool.or_false, beq_iff_eq,
    validTypes, validExtensions, fileExtension, maxSize, jsPop_jsSplit, List.mem_cons,
    List.mem_singleton, List.not_mem_nil, or_false]
  rw [e1, e2, e3]
  simp only [dot_append_eq_iff]

theorem specValid_iff (file : File) :
    SpecValid file ↔
      ((file.type ∈ ["audio/wav", "audio/mp3", "audio/mpeg", "audio/m4a", "audio/x-m4a"] ∨
          ('.' ∈ file.name.data ∧
            String.mk (toLowerCase (lastSegment file.name.data)) ∈ ["wav", "mp3", "m4a"])) ∧
        file.size ≤ 52428800) := by
  unfold SpecValid textAfterLastDot lastSegment
  by_cases hd : '.' ∈ file.name.data
  · simp [hd]
  · simp [hd]

/-- Every file the specification's rule admits passes the two checks of the handler. -/
theorem passesValidation_of_specValid (file : File) (h : SpecValid file) :
    passesValidation file = true := by
  rw [passesValidation_iff]
  rw [specValid_iff] at h
  obtain ⟨h1, h2⟩ := h
  refine ⟨?_, h2⟩
  rcases h1 with h1 | ⟨_, h1⟩
  · exact Or.inl h1
  · exact Or.inr h1

/-- For a name that holds a `.`, or a media type on the allow-list, the two checks of
the handler pass only for files the specification's rule admits. -/
theorem specValid_of_passesValidation (file : File)
    (hd : '.' ∈ file.name.data ∨
      file.type ∈ ["audio/wav", "audio/mp3", "audio/mpeg", "audio/m4a", "audio/x-m4a"])
    (h : passesValidation file = true) : SpecValid file := by
  rw [specValid_iff]
  rw [passesValidation_iff] at h
  obtain ⟨h1, h2⟩ := h
  refine ⟨?_, h2⟩
  rcases hd with hd | hd
  · rcases h1 with h1 | h1
    · exact Or.inl h1
    · exact Or.inr ⟨hd, h1⟩
  · exact Or.inl hd

/-! ## Lemmas on the handlers -/

theorem handleFileSelection_of_passes (s : State) (file : File)
    (h : passesValidation file = true) :
    handleFileSelection s file =
      hideError (hideResults
        { s with
          selectedFile := some file
          fileNameText := file.name
          fileSizeText := formatFileSize file.size
          fileUploadAreaDisplay := Display.none
          fileInfoDisplay := Display.block
          transcribeBtnDisabled := false }) := by
  unfold passesValidation at h
  simp only [Bool.and_eq_true, Bool.or_eq_true, decide_eq_true_eq] at h
  obtain ⟨h1, h2⟩ := h
  unfold handleFileSelection
  rw [if_neg, if_neg]
  · exact Nat.not_lt.mpr h2
  · simp only [Bool.and_eq_true, Bool.not_eq_true', not_and, Bool.not_eq_false]
    intro ht
    rcases h1 with h1 | h1
    · rw [h1] at ht
      exact absurd ht (by simp)
    · exact h1

theorem handleFileSelection_of_fails (s : State) (file : File)
    (h : passesValidation file = false) :
    handleFileSelection s file =
      showError s
        (if validTypes.contains file.type = false ∧
            validExtensions.contains (fileExtension file.name) = false
          then "Please select a valid audio file (WAV, MP3, or M4A)."
          else "File size must be less than 50MB.") := by
  unfold passesValidation at h
  unfold handleFileSelection
  by_cases ht : validTypes.contains file.type = false ∧
      validExtensions.contains (fileExtension file.name) = false
  · rw [if_pos ht, if_pos]
    rw [ht.1, ht.2]
    rfl
  · rw [if_neg ht, if_neg, if_pos]
    · have hor : (validTypes.contains file.type ||
          validExtensions.contains (fileExtension file.name)) = true := by
        by_cases a : validTypes.contains file.type = true
        · rw [a]
          rfl
        · by_cases b : validExtensions.contains (fileExtension file.name) = true
          · rw [b]
            exact Bool.or_true _
          · exact absurd ⟨Bool.eq_false_iff.mpr a, Bool.eq_false_iff.mpr b⟩ ht
      rw [hor] at h
      simpa using h
    · simp only [Bool.and_eq_true, Bool.not_eq_true']
      exact ht

theorem run_append (s : State) (events : List Event) (e : Event) :
    run s (events ++ [e]) = step (run s events) e := by
  simp [run, List.foldl_append]

theorem reachable_of_isInitial (s : State) (h : IsInitial s) : Reachable s :=
  ⟨s, [], h, rfl⟩

theorem reachable_step (s : State) (e : Event) (h : Reachable s) : Reachable (step s e) := by
  obtain ⟨s0, events, h0, hr⟩ := h
  exact ⟨s0, events ++ [e], h0, by rw [run_append, hr]⟩

/-- Induction over the reachable states. -/
theorem reachable_induction (P : State → Prop) (hinit : ∀ s, IsInitial s → P s)
    (hstep : ∀ s e, Reachable s → P s → P (step s e)) :
    ∀ s, Reachable s → P s := by
  intro s ⟨s0, events, h0, hr⟩
  subst hr
  induction events using List.reverseRecOn with
  | nil => exact hinit s0 h0
  | append_singleton events e ih =>
    rw [run_append]
    exact hstep _ e ⟨s0, events, h0, rfl⟩ ih

theorem isInitial_initialState : IsInitial initialState := by
  unfold IsInitial initialState
  simp

/-- The result of `showResults` as one update of the state. -/
theorem showResults_eq (s : State) (data : ResponseData) :
    showResults s data =
      { s with
        currentTranscription := data.transcription
        originalTranscription := jsOr data.original_transcription data.transcription
        transcriptionOutputText := textContent data.transcription
        originalOutputText :=
          if data.refined = some true ∧
              jsOr data.original_transcription data.transcription ≠ data.transcription
            then textContent (jsOr data.original_transcription data.transcription)
            else s.originalOutputText
        toggleOriginalBtnDisplay :=
          if data.refined = some true ∧
              jsOr data.original_transcription data.transcription ≠ data.transcription
            then Display.flex else Display.none
        isOriginalVisible := false
        originalSectionDisplay := Display.none
        toggleIconClass := "fas fa-eye"
        toggleLabelText := " Show Original Transcription"
        resultsSectionDisplay := Display.block } := by
  unfold showResults updateToggleButton
  by_cases h : data.refined = some true ∧
      jsOr data.original_transcription data.transcription ≠ data.transcription
  · have hb : (data.refined = some true &&
        jsOr data.original_transcription data.transcription != data.transcription) = true := by
      simpa using h
    simp only [hb, if_true, if_pos h]
    rfl
  · have hb : ¬ ((data.refined = some true &&
        jsOr data.original_transcription data.transcription != data.transcription) = true) := by
      simpa using h
    simp only [if_neg hb, if_neg h]
    rfl

theorem selectionView_showError (s : State) (m : String) :
    selectionView (showError s m) = selectionView s := rfl

theorem selectionView_clearFileSelection (s : State) :
    selectionView (clearFileSelection s) = (Option.none, Display.none, true, s.pending) := rfl

theorem selectionView_resetToUpload (s : State) :
    selectionView (resetToUpload s) = (Option.none, Display.none, true, s.pending) := rfl

theorem selectionView_handleTranscriptionStart (s : State) :
    selectionView (handleTranscriptionStart s) =
      (s.selectedFile, s.fileInfoDisplay, true, s.pending + 1) := rfl

theorem selectionView_submitHandler (s : State) :
    selectionView (submitHandler s) =
      if s.selectedFile.isNone then selectionView s
      else (s.selectedFile, s.fileInfoDisplay, true, s.pending + 1) := by
  unfold submitHandler
  split <;> rfl

theorem selectionView_handleTranscriptionFinish (s : State) (r : Reply) :
    selectionView (handleTranscriptionFinish s r) =
      (s.selectedFile, s.fileInfoDisplay, false, s.pending - 1) := by
  unfold handleTranscriptionFinish
  cases r with
  | threw => rfl
  | response ok data =>
    cases ok with
    | false => rfl
    | true =>
      by_cases ht : truthy data.transcription = true
      · simp only [if_true, if_pos ht, showResults_eq]
        rfl
      · simp only [if_true, if_neg ht]
        rfl

theorem selectionView_toggleOriginalTranscription (s : State) :
    selectionView (toggleOriginalTranscription s) = selectionView s := by
  unfold toggleOriginalTranscription updateToggleButton
  cases h : s.isOriginalVisible <;> simp [h] <;> rfl

theorem selectionView_handleFileSelection (s : State) (file : File) :
    selectionView (handleFileSelection s file) =
      if passesValidation file = true then (some file, Display.block, false, s.pending)
      else selectionView s := by
  by_cases h : passesValidation file = true
  · rw [if_pos h, handleFileSelection_of_passes s file h]
    rfl
  · rw [if_neg h, handleFileSelection_of_fails s file (by simpa using h)]
    rfl

theorem selectionView_step (s : State) (e : Event) :
    selectionView (step s e) =
      match e with
      | Event.selectFile file =>
        if passesValidation file = true then (some file, Display.block, false, s.pending)
        else selectionView s
      | Event.removeFile => (Option.none, Display.none, true, s.pending)
      | Event.submit =>
        if s.selectedFile.isNone then selectionView s
        else (s.selectedFile, s.fileInfoDisplay, true, s.pending + 1)
      | Event.reply _ =>
        if s.pending = 0 then selectionView s
        else (s.selectedFile, s.fileInfoDisplay, false, s.pending - 1)
      | Event.toggleOriginal => selectionView s
      | Event.reset => (Option.none, Display.none, true, s.pending) := by
  cases e with
  | selectFile file => exact selectionView_handleFileSelection s file
  | removeFile => rfl
  | submit => exact selectionView_submitHandler s
  | reply r =>
    simp only [step]
    split
    · rfl
    · exact selectionView_handleTranscriptionFinish s r
  | toggleOriginal => exact selectionView_toggleOriginalTranscription s
  | reset => rfl

/-- Only files that pass both checks are ever stored in `selectedFile`. -/
theorem selectedFile_passes (s : State) (h : Reachable s) (file : File)
    (hf : s.selectedFile = some file) : passesValidation file = true := by
  revert file
  refine reachable_induction (fun s => ∀ file, s.selectedFile = some file →
    passesValidation file = true) ?_ ?_ s h
  · intro s hs file hf
    rw [hs.1] at hf
    exact absurd hf (by simp)
  · intro s e _ ih file hf
    have hv := selectionView_step s e
    have hsel : (step s e).selectedFile = (selectionView (step s e)).1 := rfl
    rw [hsel, hv] at hf
    cases e with
    | selectFile g =>
      by_cases hg : passesValidation g = true
      · simp only [if_pos hg, Option.some.injEq] at hf
        rw [← hf]
        exact hg
      · simp only [if_neg hg] at hf
        exact ih file hf
    | removeFile => exact absurd hf (by simp)
    | submit =>
      dsimp only at hf
      split at hf <;> exact ih file hf
    | reply r =>
      dsimp only at hf
      split at hf <;> exact ih file hf
    | toggleOriginal => exact ih file hf
    | reset => exact absurd hf (by simp)

/-! ## Claims -/

/-- In every state the controller can reach, the three effects of an accepted selection
(the file stored as `selectedFile`, the file-info panel shown, the submit button
enabled) hold after `handleFileSelection` exactly when the file passes the two checks
of the handler. -/
theorem handleFileSelection_effects_iff (s : State) (hs : Reachable s) (file : File) :
    ((handleFileSelection s file).selectedFile = some file ∧
      (handleFileSelection s file).fileInfoDisplay = Display.block ∧
      (handleFileSelection s file).transcribeBtnDisabled = false) ↔
    passesValidation file = true := by
  constructor
  · intro ⟨h1, _, _⟩
    by_cases hp : passesValidation file = true
    · exact hp
    · rw [handleFileSelection_of_fails s file (by simpa using hp)] at h1
      exact selectedFile_passes s hs file h1
  · intro hp
    rw [handleFileSelection_of_passes s file hp]
    exact ⟨rfl, rfl, rfl⟩

/-- Every file the specification's rule admits is accepted, from every state; a file of
more than 52,428,800 bytes leaves `selectedFile`, the file-info panel and the submit
button as they were. -/
theorem handleFileSelection_accepts_specValid (s : State) (file : File) :
    (SpecValid file →
      (handleFileSelection s file).selectedFile = some file ∧
        (handleFileSelection s file).fileInfoDisplay = Display.block ∧
        (handleFileSelection s file).transcribeBtnDisabled = false) ∧
    (file.size > 52428800 →
      (handleFileSelection s file).selectedFile = s.selectedFile ∧
        (handleFileSelection s file).fileInfoDisplay = s.fileInfoDisplay ∧
        (handleFileSelection s file).transcribeBtnDisabled = s.transcribeBtnDisabled) := by
  constructor
  · intro h
    rw [handleFileSelection_of_passes s file (passesValidation_of_specValid file h)]
    exact ⟨rfl, rfl, rfl⟩
  · intro h
    have hp : passesValidation file = false := by
      unfold passesValidation
      have : decide (file.size ≤ maxSize) = false := by
        simp only [maxSize, decide_eq_false_iff_not]
        omega
      rw [this]
      exact Bool.and_false _
    rw [handleFileSelection_of_fails s file hp]
    exact ⟨rfl, rfl, rfl⟩

/-- C1: a file named `wav` of 52,428,800 bytes with an empty media type has no `.` in
its name, so no text after a last `.`, and its type is not on the allow-list: the
specification's rule does not admit it.  `handleFileSelection` accepts it all the same:
it is stored as `selectedFile`, the file-info panel is shown and the submit button is
enabled. -/
theorem handleFileSelection_accepts_without_extension :
    ¬ SpecValid ⟨"wav", "", 52428800⟩ ∧
      textAfterLastDot "wav".data = Option.none ∧
      (handleFileSelection initialState ⟨"wav", "", 52428800⟩).selectedFile =
        some ⟨"wav", "", 52428800⟩ ∧
      (handleFileSelection initialState ⟨"wav", "", 52428800⟩).fileInfoDisplay =
        Display.block ∧
      (handleFileSelection initialState ⟨"wav", "", 52428800⟩).transcribeBtnDisabled =
        false := by
  refine ⟨?_, by decide, by decide, by decide, by decide⟩
  rw [specValid_iff]
  decide

/-- C2: a file named `mp3` (no `.` in the name, so it ends in none of `.wav`, `.mp3`,
`.m4a`) with an empty media type and 10 bytes is not rejected: `handleFileSelection`
stores it as `selectedFile` and the error panel is hidden. -/
theorem handleFileSelection_dotless_name_accepted :
    endsWithIgnoringCase "mp3" ".wav" = false ∧ endsWithIgnoringCase "mp3" ".mp3" = false ∧
      endsWithIgnoringCase "mp3" ".m4a" = false ∧
      "" ∉ ["audio/wav", "audio/mp3", "audio/mpeg", "audio/m4a", "audio/x-m4a"] ∧
      (handleFileSelection initialState ⟨"mp3", "", 10⟩).selectedFile = some ⟨"mp3", "", 10⟩ ∧
      (handleFileSelection initialState ⟨"mp3", "", 10⟩).errorSectionDisplay = Display.none ∧
      (handleFileSelection initialState ⟨"mp3", "", 10⟩).errorMessageText ≠
        "Please select a valid audio file (WAV, MP3, or M4A)." := by
  decide

/-- C9: from every state, for every file that fails validation (media type and
extension both outside the allow-lists, or more than 52,428,800 bytes),
`handleFileSelection` changes nothing but the error panel, which becomes visible with
the invalid-type message when the type check fails and with the size message when the
type check passes. -/
theorem handleFileSelection_rejection_frame (s : State) (file : File)
    (h : (file.type ∉ validTypes ∧ fileExtension file.name ∉ validExtensions) ∨
      file.size > 52428800) :
    handleFileSelection s file =
      { s with
        errorSectionDisplay := Display.block
        errorMessageText :=
          if file.type ∉ validTypes ∧ fileExtension file.name ∉ validExtensions
            then "Please select a valid audio file (WAV, MP3, or M4A)."
            else "File size must be less than 50MB." } := by
  have hp : passesValidation file = false := by
    unfold passesValidation
    rcases h with ⟨h1, h2⟩ | h
    · have a : validTypes.contains file.type = false := by simpa using h1
      have b : validExtensions.contains (fileExtension file.name) = false := by simpa using h2
      rw [a, b]
      rfl
    · have : decide (file.size ≤ maxSize) = false := by
        simp only [maxSize, decide_eq_false_iff_not]
        omega
      rw [this]
      exact Bool.and_false _
  rw [handleFileSelection_of_fails s file hp]
  have e : (validTypes.contains file.type = false ∧
      validExtensions.contains (fileExtension file.name) = false) ↔
      (file.type ∉ validTypes ∧ fileExtension file.name ∉ validExtensions) := by
    simp
  simp only [e]
  rfl

/-- C9, on an example: after a valid selection, a text file and an oversized audio file
each leave the selection in place and show their message. -/
theorem handleFileSelection_rejection_frame_witness :
    handleFileSelection (handleFileSelection initialState ⟨"a.wav", "audio/wav", 5⟩)
        ⟨"big.mp3", "audio/mpeg", 52428801⟩ =
      { handleFileSelection initialState ⟨"a.wav", "audio/wav", 5⟩ with
        errorSectionDisplay := Display.block
        errorMessageText :=
          if "audio/mpeg" ∉ validTypes ∧ fileExtension "big.mp3" ∉ validExtensions
            then "Please select a valid audio file (WAV, MP3, or M4A)."
            else "File size must be less than 50MB." } :=
  handleFileSelection_rejection_frame _ ⟨"big.mp3", "audio/mpeg", 52428801⟩
    (Or.inr (by decide))

/-- The part of `handleTranscription` that runs when the reply arrives shows the panel
of the outcome the specification gives for the reply, with its text, and leaves the
display of the other panel as it finds it. -/
theorem handleTranscriptionFinish_outcome (s : State) (r : Reply) :
    match specOutcome r with
    | Outcome.results text =>
      (handleTranscriptionFinish s r).resultsSectionDisplay = Display.block ∧
        (handleTranscriptionFinish s r).transcriptionOutputText = text ∧
        (handleTranscriptionFinish s r).errorSectionDisplay = s.errorSectionDisplay
    | Outcome.error message =>
      (handleTranscriptionFinish s r).errorSectionDisplay = Display.block ∧
        (handleTranscriptionFinish s r).errorMessageText = message ∧
        (handleTranscriptionFinish s r).resultsSectionDisplay = s.resultsSectionDisplay := by
  cases r with
  | threw => exact ⟨rfl, rfl, rfl⟩
  | response ok data =>
    obtain ⟨tr, orig, refined, err⟩ := data
    cases ok with
    | false =>
      cases err with
      | none => exact ⟨rfl, rfl, rfl⟩
      | some e =>
        by_cases hempty : e = ""
        · subst hempty
          exact ⟨rfl, rfl, rfl⟩
        · have hm : textContent (jsOr (some e)
              (some "An error occurred during transcription. Please try again.")) = e := by
            simp [jsOr, truthy, hempty, textContent]
          simp only [specOutcome, if_neg hempty]
          exact ⟨rfl, hm, rfl⟩
    | true =>
      cases tr with
      | none => exact ⟨rfl, rfl, rfl⟩
      | some t =>
        by_cases hempty : t = ""
        · subst hempty
          exact ⟨rfl, rfl, rfl⟩
        · have hf : truthy (some t) = true := by simp [truthy, hempty]
          have hfin : handleTranscriptionFinish s
                (Reply.response true ⟨some t, orig, refined, err⟩) =
              { setLoadingState (showResults s ⟨some t, orig, refined, err⟩) false with
                pending := s.pending - 1 } := by
            unfold handleTranscriptionFinish
            simp only [if_true, if_pos hf, showResults_eq]
            rfl
          simp only [specOutcome, if_neg hempty]
          rw [hfin, showResults_eq]
          exact ⟨rfl, rfl, rfl⟩

/-- C3: a file is selected and submitted, removed while the request is pending, a text
file is dropped on the upload area, and then the reply arrives with the transcription
`hello`: `handleTranscription` ends with the results panel shown with `hello` and the
error panel still shown with the invalid-type message, not hidden. -/
theorem transcription_shown_beside_error :
    (run initialState
        [Event.selectFile ⟨"a.wav", "audio/wav", 5⟩, Event.submit, Event.removeFile,
          Event.selectFile ⟨"notes.txt", "text/plain", 5⟩,
          Event.reply (Reply.response true ⟨some "hello", Option.none, Option.none, Option.none⟩)]).resultsSectionDisplay
        = Display.block ∧
      (run initialState
        [Event.selectFile ⟨"a.wav", "audio/wav", 5⟩, Event.submit, Event.removeFile,
          Event.selectFile ⟨"notes.txt", "text/plain", 5⟩,
          Event.reply (Reply.response true ⟨some "hello", Option.none, Option.none, Option.none⟩)]).transcriptionOutputText
        = "hello" ∧
      (run initialState
        [Event.selectFile ⟨"a.wav", "audio/wav", 5⟩, Event.submit, Event.removeFile,
          Event.selectFile ⟨"notes.txt", "text/plain", 5⟩,
          Event.reply (Reply.response true ⟨some "hello", Option.none, Option.none, Option.none⟩)]).errorSectionDisplay
        = Display.block ∧
      (run initialState
        [Event.selectFile ⟨"a.wav", "audio/wav", 5⟩, Event.submit, Event.removeFile,
          Event.selectFile ⟨"notes.txt", "text/plain", 5⟩,
          Event.reply (Reply.response true ⟨some "hello", Option.none, Option.none, Option.none⟩)]).errorMessageText
        = "Please select a valid audio file (WAV, MP3, or M4A)." := by
  decide

theorem jsOr_eq_specStoredOriginal (data : ResponseData) :
    jsOr data.original_transcription data.transcription = specStoredOriginal data := by
  unfold jsOr specStoredOriginal
  cases data.original_transcription with
  | none => rfl
  | some o =>
    by_cases ho : o = ""
    · simp [truthy, ho]
    · simp [truthy, ho]

/-- C4: for every response (so for every one with a non-empty transcription), after
`showResults` the stored original text is `original_transcription` when that is a non-empty string and
the transcription otherwise, the toggle is displayed if and only if `refined` is true
and that stored text differs from the transcription (and is hidden otherwise), and
`isOriginalVisible` is false with the original-text panel hidden. -/
theorem showResults_toggle (s : State) (data : ResponseData) :
    (showResults s data).originalTranscription = specStoredOriginal data ∧
      ((showResults s data).toggleOriginalBtnDisplay = Display.flex ↔
        (data.refined = some true ∧ specStoredOriginal data ≠ data.transcription)) ∧
      ((showResults s data).toggleOriginalBtnDisplay = Display.none ↔
        ¬ (data.refined = some true ∧ specStoredOriginal data ≠ data.transcription)) ∧
      (showResults s data).isOriginalVisible = false ∧
      (showResults s data).originalSectionDisplay = Display.none := by
  rw [showResults_eq, ← jsOr_eq_specStoredOriginal]
  refine ⟨rfl, ?_, ?_, rfl, rfl⟩
  · by_cases h : data.refined = some true ∧
        jsOr data.original_transcription data.transcription ≠ data.transcription
    · simp [h]
    · simp [h]
  · by_cases h : data.refined = some true ∧
        jsOr data.original_transcription data.transcription ≠ data.transcription
    · simp [h]
    · simp [h]

/-- C4, on the examples of the claim: the refined response with a different original
shows the toggle; the unrefined response and the refined response whose original
equals the transcription hide it. -/
theorem showResults_toggle_witness :
    (showResults initialState ⟨some "hello", some "helo", some true, Option.none⟩).toggleOriginalBtnDisplay
        = Display.flex ∧
      (showResults initialState ⟨some "hello", Option.none, some false, Option.none⟩).toggleOriginalBtnDisplay
        = Display.none ∧
      (showResults initialState ⟨some "hello", some "hello", some true, Option.none⟩).toggleOriginalBtnDisplay
        = Display.none ∧
      (showResults initialState ⟨some "hello", some "", some true, Option.none⟩).toggleOriginalBtnDisplay
        = Display.none :=
  ⟨(showResults_toggle initialState ⟨some "hello", some "helo", some true, Option.none⟩).2.1.mpr (by decide),
    (showResults_toggle initialState ⟨some "hello", Option.none, some false, Option.none⟩).2.2.1.mpr (by decide),
    (showResults_toggle initialState ⟨some "hello", some "hello", some true, Option.none⟩).2.2.1.mpr (by decide),
    (showResults_toggle initialState ⟨some "hello", some "", some true, Option.none⟩).2.2.1.mpr (by decide)⟩

theorem toggleOriginalTranscription_eq (s : State) :
    toggleOriginalTranscription s =
      { s with
        isOriginalVisible := !s.isOriginalVisible
        originalSectionDisplay := if s.isOriginalVisible then Display.none else Display.block
        originalSectionAnimation :=
          if s.isOriginalVisible then s.originalSectionAnimation else "fadeInUp 0.3s ease"
        toggleIconClass := if s.isOriginalVisible then "fas fa-eye" else "fas fa-eye-slash"
        toggleLabelText :=
          if s.isOriginalVisible then " Show Original Transcription"
          else " Hide Original Transcription" } := by
  unfold toggleOriginalTranscription updateToggleButton
  cases h : s.isOriginalVisible <;> simp

/-- C10: from every state, `toggleOriginalTranscription` negates `isOriginalVisible`,
leaves the original-text panel displayed exactly when the new value is true, and sets
the label to ` Hide Original Transcription` when it is true and to
` Show Original Transcription` when it is false; right after `showResults` on
`{transcription: "hello", refined: true, original_transcription: "helo"}` one toggle
shows the panel, which contains `helo`, and a second toggle restores
`isOriginalVisible`, the display of the panel and the label. -/
theorem toggleOriginalTranscription_flips (s : State) :
    (toggleOriginalTranscription s).isOriginalVisible = (!s.isOriginalVisible) ∧
      ((toggleOriginalTranscription s).originalSectionDisplay = Display.block ↔
        (toggleOriginalTranscription s).isOriginalVisible = true) ∧
      ((toggleOriginalTranscription s).originalSectionDisplay = Display.none ↔
        (toggleOriginalTranscription s).isOriginalVisible = false) ∧
      (toggleOriginalTranscription s).toggleLabelText =
        (if (toggleOriginalTranscription s).isOriginalVisible then " Hide Original Transcription"
          else " Show Original Transcription") ∧
      (toggleOriginalTranscription
          (showResults s ⟨some "hello", some "helo", some true, Option.none⟩)).originalSectionDisplay
        = Display.block ∧
      (toggleOriginalTranscription
          (showResults s ⟨some "hello", some "helo", some true, Option.none⟩)).originalOutputText
        = "helo" ∧
      (toggleOriginalTranscription (toggleOriginalTranscription
          (showResults s ⟨some "hello", some "helo", some true, Option.none⟩))).isOriginalVisible
        = (showResults s ⟨some "hello", some "helo", some true, Option.none⟩).isOriginalVisible ∧
      (toggleOriginalTranscription (toggleOriginalTranscription
          (showResults s ⟨some "hello", some "helo", some true, Option.none⟩))).originalSectionDisplay
        = (showResults s ⟨some "hello", some "helo", some true, Option.none⟩).originalSectionDisplay ∧
      (toggleOriginalTranscription (toggleOriginalTranscription
          (showResults s ⟨some "hello", some "helo", some true, Option.none⟩))).toggleLabelText
        = (showResults s ⟨some "hello", some "helo", some true, Option.none⟩).toggleLabelText := by
  refine ⟨?_, ?_, ?_, ?_, ?_, ?_, ?_, ?_, ?_⟩
  · rw [toggleOriginalTranscription_eq]
  · rw [toggleOriginalTranscription_eq]
    cases h : s.isOriginalVisible <;> simp
  · rw [toggleOriginalTranscription_eq]
    cases h : s.isOriginalVisible <;> simp
  · rw [toggleOriginalTranscription_eq]
    cases h : s.isOriginalVisible <;> simp
  · rw [toggleOriginalTranscription_eq, showResults_eq]
    rfl
  · rw [toggleOriginalTranscription_eq, showResults_eq]
    simp [jsOr, truthy, textContent]
  · rw [toggleOriginalTranscription_eq, toggleOriginalTranscription_eq, showResults_eq]
    rfl
  · rw [toggleOriginalTranscription_eq, toggleOriginalTranscription_eq, showResults_eq]
    rfl
  · rw [toggleOriginalTranscription_eq, toggleOriginalTranscription_eq, showResults_eq]
    rfl

/-- C5: a file is selected and submitted, removed while the request is pending, the
reply brings a transcription, and then a text file is dropped on the upload area: the
results panel and the error panel are both visible. -/
theorem results_and_error_both_visible :
    (run initialState
        [Event.selectFile ⟨"a.wav", "audio/wav", 5⟩, Event.submit, Event.removeFile,
          Event.reply (Reply.response true ⟨some "hello", Option.none, Option.none, Option.none⟩),
          Event.selectFile ⟨"notes.txt", "text/plain", 5⟩]).resultsSectionDisplay
        = Display.block ∧
      (run initialState
        [Event.selectFile ⟨"a.wav", "audio/wav", 5⟩, Event.submit, Event.removeFile,
          Event.reply (Reply.response true ⟨some "hello", Option.none, Option.none, Option.none⟩),
          Event.selectFile ⟨"notes.txt", "text/plain", 5⟩]).errorSectionDisplay
        = Display.block := by
  decide

/-- What `resetToUpload` does clear, from every state: the selection, both
transcription texts, the flag `isOriginalVisible`, both panels, the file-info panel and
the submit button. -/
theorem resetToUpload_clears (s : State) :
    (resetToUpload s).selectedFile = Option.none ∧
      (resetToUpload s).currentTranscription = some "" ∧
      (resetToUpload s).originalTranscription = some "" ∧
      (resetToUpload s).isOriginalVisible = false ∧
      (resetToUpload s).resultsSectionDisplay = Display.none ∧
      (resetToUpload s).errorSectionDisplay = Display.none ∧
      (resetToUpload s).fileInfoDisplay = Display.none ∧
      (resetToUpload s).transcribeBtnDisabled = true ∧
      (resetToUpload s).originalSectionDisplay = s.originalSectionDisplay ∧
      (resetToUpload s).toggleLabelText = s.toggleLabelText :=
  ⟨rfl, rfl, rfl, rfl, rfl, rfl, rfl, rfl, rfl, rfl⟩

/-- C8: after a refined result whose original text has been toggled to visible, the
reset leaves `isOriginalVisible` false but the original-text panel still has display
`block` and the toggle still reads ` Hide Original Transcription`. -/
theorem resetToUpload_keeps_toggle_display :
    (run initialState
        [Event.selectFile ⟨"a.wav", "audio/wav", 5⟩, Event.submit,
          Event.reply (Reply.response true ⟨some "hello", some "helo", some true, Option.none⟩),
          Event.toggleOriginal, Event.reset]).isOriginalVisible = false ∧
      (run initialState
        [Event.selectFile ⟨"a.wav", "audio/wav", 5⟩, Event.submit,
          Event.reply (Reply.response true ⟨some "hello", some "helo", some true, Option.none⟩),
          Event.toggleOriginal, Event.reset]).originalSectionDisplay = Display.block ∧
      (run initialState
        [Event.selectFile ⟨"a.wav", "audio/wav", 5⟩, Event.submit,
          Event.reply (Reply.response true ⟨some "hello", some "helo", some true, Option.none⟩),
          Event.toggleOriginal, Event.reset]).toggleLabelText = " Hide Original Transcription" := by
  decide

theorem reachable_run_initialState (events : List Event) :
    Reachable (run initialState events) :=
  ⟨initialState, events, isInitial_initialState, rfl⟩

/-- C6 as stated fails while a submission is in flight: after a valid selection and the
submission, a file is selected and the file-info panel is shown, but the submit button
is disabled. -/
theorem submit_disabled_while_file_selected :
    Reachable (run initialState [Event.selectFile ⟨"a.wav", "audio/wav", 5⟩, Event.submit]) ∧
      ¬ ((run initialState
            [Event.selectFile ⟨"a.wav", "audio/wav", 5⟩, Event.submit]).selectedFile ≠ Option.none ↔
          ((run initialState
              [Event.selectFile ⟨"a.wav", "audio/wav", 5⟩, Event.submit]).fileInfoDisplay
              ≠ Display.none ∧
            (run initialState
              [Event.selectFile ⟨"a.wav", "audio/wav", 5⟩, Event.submit]).transcribeBtnDisabled
              = false)) :=
  ⟨reachable_run_initialState _, by decide⟩

/-- C6, amended: in every reachable state `selectedFile` is non-null if and only if the
file-info panel is shown, and in every reachable state with no request in flight
`selectedFile` is non-null if and only if the file-info panel is shown and the submit
button is enabled. -/
theorem selection_invariant (s : State) (hs : Reachable s) :
    (s.selectedFile ≠ Option.none ↔ s.fileInfoDisplay ≠ Display.none) ∧
      (s.pending = 0 →
        (s.selectedFile ≠ Option.none ↔
          (s.fileInfoDisplay ≠ Display.none ∧ s.transcribeBtnDisabled = false))) := by
  have key : (s.selectedFile = Option.none ↔ s.fileInfoDisplay = Display.none) ∧
      (s.selectedFile ≠ Option.none → s.pending = 0 → s.transcribeBtnDisabled = false) := by
    refine reachable_induction (fun s =>
      (s.selectedFile = Option.none ↔ s.fileInfoDisplay = Display.none) ∧
      (s.selectedFile ≠ Option.none → s.pending = 0 → s.transcribeBtnDisabled = false)) ?_ ?_ s hs
    · intro s hi
      obtain ⟨h1, _, _, _, h5, _, _, _, _⟩ := hi
      exact ⟨by simp [h1, h5], fun h => absurd h1 h⟩
    · intro s e _ ih
      have hv := selectionView_step s e
      have h1 : (step s e).selectedFile = (selectionView (step s e)).1 := rfl
      have h2 : (step s e).fileInfoDisplay = (selectionView (step s e)).2.1 := rfl
      have h3 : (step s e).transcribeBtnDisabled = (selectionView (step s e)).2.2.1 := rfl
      have h4 : (step s e).pending = (selectionView (step s e)).2.2.2 := rfl
      rw [h1, h2, h3, h4, hv]
      obtain ⟨ih1, ih2⟩ := ih
      cases e with
      | selectFile file =>
        by_cases hp : passesValidation file = true
        · simp [hp]
        · simp only [if_neg hp]
          exact ⟨ih1, ih2⟩
      | removeFile => simp
      | submit =>
        by_cases hn : s.selectedFile.isNone = true
        · simp only [if_pos hn]
          exact ⟨ih1, ih2⟩
        · simp only [if_neg hn]
          exact ⟨ih1, by simp⟩
      | reply r =>
        by_cases hz : s.pending = 0
        · simp only [if_pos hz]
          exact ⟨ih1, ih2⟩
        · simp only [if_neg hz]
          exact ⟨ih1, by simp⟩
      | toggleOriginal => exact ⟨ih1, ih2⟩
      | reset => simp
  obtain ⟨k1, k2⟩ := key
  refine ⟨not_congr k1, fun hz => ⟨fun h => ⟨fun hd => h (k1.mpr hd), k2 h hz⟩, fun h hn => h.1 (k1.mp hn)⟩⟩

/-- C6, amended, on an example: after a valid selection, the submission and its reply,
no request is in flight, a file is selected, the file-info panel is shown and the
submit button is enabled. -/
theorem selection_invariant_witness :
    (run initialState
        [Event.selectFile ⟨"a.wav", "audio/wav", 5⟩, Event.submit,
          Event.reply Reply.threw]).selectedFile ≠ Option.none ∧
      (run initialState
        [Event.selectFile ⟨"a.wav", "audio/wav", 5⟩, Event.submit,
          Event.reply Reply.threw]).fileInfoDisplay ≠ Display.none ∧
      (run initialState
        [Event.selectFile ⟨"a.wav", "audio/wav", 5⟩, Event.submit,
          Event.reply Reply.threw]).transcribeBtnDisabled = false :=
  ⟨by decide,
    ((selection_invariant _ (reachable_run_initialState
      [Event.selectFile ⟨"a.wav", "audio/wav", 5⟩, Event.submit, Event.reply Reply.threw])).2
        (by decide)).mp (by decide)⟩

theorem toFixed2_nearest (num den : Nat) (hden : 0 < den) :
    |(toFixed2 num den : ℚ) / 100 - (num : ℚ) / den| ≤ 1 / 200 := by
  have hlo : 2 * den * toFixed2 num den ≤ 200 * num + den := by
    unfold toFixed2
    exact Nat.mul_div_le _ _
  have hhi : 200 * num + den < 2 * den * toFixed2 num den + 2 * den := by
    unfold toFixed2
    have := Nat.lt_mul_div_succ (200 * num + den) (show 0 < 2 * den by omega)
    rw [Nat.mul_succ] at this
    exact this
  have hlo2 : (2 : ℚ) * den * toFixed2 num den ≤ 200 * num + den := by exact_mod_cast hlo
  have hhi2 : (200 : ℚ) * num + den < 2 * den * toFixed2 num den + 2 * den := by
    exact_mod_cast hhi
  have hd : (0 : ℚ) < den := by exact_mod_cast hden
  have e : (toFixed2 num den : ℚ) / 100 - (num : ℚ) / den =
      (2 * den * toFixed2 num den - 200 * num) / (200 * den) := by
    field_simp
    ring
  rw [e, abs_le]
  constructor
  · rw [le_div_iff₀ (by positivity)]
    nlinarith
  · rw [div_le_iff₀ (by positivity)]
    nlinarith

theorem sizes_get_of_lt (i : Nat) (h : i < 4) :
    ∃ unit, sizes.get? i = some unit ∧ unit ∈ sizes ∧ sizesAt i = unit := by
  unfold sizesAt
  interval_cases i
  · exact ⟨"Bytes", rfl, by decide, rfl⟩
  · exact ⟨"KB", rfl, by decide, rfl⟩
  · exact ⟨"MB", rfl, by decide, rfl⟩
  · exact ⟨"GB", rfl, by decide, rfl⟩

/-- C7 as stated fails from one tebibyte on: `formatFileSize(1099511627776)` is
`1 undefined`, index 4 being outside the four unit names. -/
theorem formatFileSize_tebibyte :
    formatFileSize 1099511627776 = "1 undefined" ∧
      sizes.get? (Nat.log 1024 1099511627776) = Option.none ∧
      ¬ ∃ unit ∈ sizes, unit.data.isSuffixOf (formatFileSize 1099511627776).data = true := by
  have hlog : Nat.log 1024 1099511627776 = 4 := by
    rw [Nat.log_eq_iff] <;> norm_num
  have hval : formatFileSize 1099511627776 = "1 undefined" := by
    unfold formatFileSize
    simp only [hlog]
    decide
  refine ⟨hval, by rw [hlog]; rfl, ?_⟩
  rw [hval]
  decide

/-- C7, amended: for every byte count below 1024^4 (`handleFileSelection` passes none
above 52,428,800), `formatFileSize` gives `0 Bytes` for 0 and otherwise the value, a
space and the unit, where the unit is the element of `[Bytes, KB, MB, GB]` at index
`i = floor(log_1024 b)` and the value is the hundredths count nearest to `b / 1024^i`
printed without trailing zeros; `formatFileSize(1536)` is `1.5 KB` and
`formatFileSize(1048576)` is `1 MB`. -/
theorem formatFileSize_spec (b : Nat) (hb : b < 1024 ^ 4) :
    (b = 0 → formatFileSize b = "0 Bytes") ∧
      (0 < b → ∃ (unit : String) (h : Nat),
        sizes.get? (Nat.log 1024 b) = some unit ∧ unit ∈ sizes ∧
        1024 ^ Nat.log 1024 b ≤ b ∧ b < 1024 ^ (Nat.log 1024 b + 1) ∧
        |(h : ℚ) / 100 - (b : ℚ) / 1024 ^ Nat.log 1024 b| ≤ 1 / 200 ∧
        formatFileSize b = numberToString h ++ " " ++ unit) ∧
      formatFileSize 1536 = "1.5 KB" ∧ formatFileSize 1048576 = "1 MB" := by
  refine ⟨?_, ?_, ?_, ?_⟩
  · intro h0
    rw [h0]
    rfl
  · intro hpos
    have hne : b ≠ 0 := Nat.pos_iff_ne_zero.mp hpos
    have hi : Nat.log 1024 b < 4 := Nat.log_lt_of_lt_pow hne hb
    obtain ⟨unit, hget, hmem, hat⟩ := sizes_get_of_lt _ hi
    refine ⟨unit, toFixed2 b (1024 ^ Nat.log 1024 b), hget, hmem,
      Nat.pow_log_le_self 1024 hne, Nat.lt_pow_succ_log_self (by norm_num) b, ?_, ?_⟩
    · have := toFixed2_nearest b (1024 ^ Nat.log 1024 b) (by positivity)
      simpa using this
    · unfold formatFileSize
      rw [if_neg hne]
      simp only [hat]
  · have hlog : Nat.log 1024 1536 = 1 := by
      rw [Nat.log_eq_iff] <;> norm_num
    unfold formatFileSize
    simp only [hlog]
    decide
  · have hlog : Nat.log 1024 1048576 = 2 := by
      rw [Nat.log_eq_iff] <;> norm_num
    unfold formatFileSize
    simp only [hlog]
    decide

/-- C7, amended, at the size limit of the upload: 52,428,800 bytes are below 1024^4 and
are formatted with a unit of the list. -/
theorem formatFileSize_spec_witness :
    ∃ (unit : String) (h : Nat),
      sizes.get? (Nat.log 1024 52428800) = some unit ∧ unit ∈ sizes ∧
      1024 ^ Nat.log 1024 52428800 ≤ 52428800 ∧
      52428800 < 1024 ^ (Nat.log 1024 52428800 + 1) ∧
      |(h : ℚ) / 100 - ((52428800 : Nat) : ℚ) / 1024 ^ Nat.log 1024 52428800| ≤ 1 / 200 ∧
      formatFileSize 52428800 = numberToString h ++ " " ++ unit :=
  (formatFileSize_spec 52428800 (by norm_num)).2.1 (by norm_num)

end VoiceToText
